import Mathlib

/-!
Verification of the SLCAN demo repository: a shallow embedding of the
Python script `src/examples/python/simple.py` together with the SLCAN
transport core (codec, line framer, bus session) described by the
specification.  The script itself only calls into an external CAN
library; the codec / framer / session definitions below are therefore
modelled from the specification text, while the script functions
(`setup_slcan_bus`, `send_test_message`, `receive_messages`, `main`)
are embedded from the source.
-/

namespace Slcan

/-- ASCII carriage return, the SLCAN line terminator (0x0D). -/
def CR : ℕ := 13

/-- ASCII bell character, the SLCAN device NAK (0x07). -/
def BEL : ℕ := 7

/-- Modelled from the spec: a CAN frame (section 3 data model): identifier
tagged standard/extended, remote-transmission-request flag, payload of
bytes.  The optional hardware timestamp is reception metadata that is not
carried on the SLCAN wire and plays no part in the codec. -/
structure CanFrame where
  id : ℕ
  ext : Bool
  rtr : Bool
  data : List ℕ
deriving DecidableEq, Repr

/-- Modelled from the spec: the greatest identifier representable in each
identifier format (11-bit standard, 29-bit extended). -/
def maxId (ext : Bool) : ℕ := if ext then 0x1FFFFFFF else 0x7FF

/-- Modelled from the spec: width in hex digits of the serialized
identifier (3 standard, 8 extended). -/
def idWidth (ext : Bool) : ℕ := if ext then 8 else 3

/-- Validity invariant of a frame (section 3): payload at most 8 bytes,
each payload entry an actual byte, identifier within its format range. -/
def CanFrame.valid (f : CanFrame) : Prop :=
  f.data.length ≤ 8 ∧ f.id ≤ maxId f.ext ∧ ∀ b ∈ f.data, b < 256

instance (f : CanFrame) : Decidable f.valid := by
  unfold CanFrame.valid; infer_instance

/-- Uppercase hexadecimal digit character (as a byte) of a value below 16. -/
def hexDigit (d : ℕ) : ℕ := if d < 10 then 48 + d else 55 + d

/-- Whether a byte is an uppercase hexadecimal digit character. -/
def isHexDigit (c : ℕ) : Bool := (48 ≤ c ∧ c ≤ 57) ∨ (65 ≤ c ∧ c ≤ 70)

/-- Numeric value of an uppercase hexadecimal digit character. -/
def hexVal (c : ℕ) : ℕ := if c ≤ 57 then c - 48 else c - 55

/-- Fixed-width big-endian uppercase hexadecimal serialization. -/
def encodeHexFixed : ℕ → ℕ → List ℕ
  | 0, _ => []
  | w + 1, n => hexDigit (n / 16 ^ w) :: encodeHexFixed w (n % 16 ^ w)

/-- Fixed-width hexadecimal parse with accumulator; returns the value and
the unconsumed remainder, or `none` on a non-hex byte or truncation. -/
def parseHexFixed : ℕ → ℕ → List ℕ → Option (ℕ × List ℕ)
  | 0, acc, l => some (acc, l)
  | _ + 1, _, [] => none
  | w + 1, acc, c :: l =>
    if isHexDigit c then parseHexFixed w (acc * 16 + hexVal c) l else none

/-- Modelled from the spec: the four leading command letters chosen by the
(extended?, RTR?) pair: `t`, `T`, `r`, `R`. -/
def cmdLetter (ext rtr : Bool) : ℕ :=
  match ext, rtr with
  | false, false => 116
  | true, false => 84
  | false, true => 114
  | true, true => 82

/-- Inverse of `cmdLetter`: recover the (extended?, RTR?) pair from a
leading byte, or `none` when the byte is not a frame command letter. -/
def letterInfo (c : ℕ) : Option (Bool × Bool) :=
  if c = 116 then some (false, false)
  else if c = 84 then some (true, false)
  else if c = 114 then some (false, true)
  else if c = 82 then some (true, true)
  else none

/-- Unconditional serialization of a frame: command letter, fixed-width
identifier, one length digit, payload bytes as hex pairs, terminator. -/
def encodeRaw (f : CanFrame) : List ℕ :=
  cmdLetter f.ext f.rtr ::
    (encodeHexFixed (idWidth f.ext) f.id ++
      hexDigit f.data.length ::
        ((f.data.map (encodeHexFixed 2)).flatten ++ [CR]))

/-- Modelled from the spec: the error raised by `encode` on out-of-range
input (section 4.1). -/
inductive EncodingError where
  | payloadTooLong
  | idOutOfRange
deriving DecidableEq, Repr

/-- Modelled from the spec: `encode` (section 4.1).  Fails with
`EncodingError` if the payload length exceeds 8 or the identifier exceeds
the range of its format; otherwise produces the raw SLCAN line. -/
def encode (f : CanFrame) : Except EncodingError (List ℕ) :=
  if 8 < f.data.length then .error .payloadTooLong
  else if maxId f.ext < f.id then .error .idOutOfRange
  else .ok (encodeRaw f)

/-- Modelled from the spec: result of decoding one raw line (section 4.1):
a CAN frame, a control acknowledgment, or a control error. -/
inductive DecodeResult where
  | frame (f : CanFrame)
  | controlAck
  | controlError
deriving DecidableEq, Repr

/-- Parse `k` payload bytes, each two hexadecimal digits. -/
def parseDataBytes : ℕ → List ℕ → Option (List ℕ × List ℕ)
  | 0, l => some ([], l)
  | k + 1, l =>
    match parseHexFixed 2 0 l with
    | none => none
    | some (b, l1) =>
      match parseDataBytes k l1 with
      | none => none
      | some (bs, l2) => some (b :: bs, l2)

/-- Modelled from the spec: `decode` (section 4.1).  A carriage-return-only
line is an ack; a bell-character response is a device NAK surfaced as
`controlError`; a frame line is parsed by leading letter, fixed-width
identifier, one length digit and the payload; anything malformed yields
`controlError`.  Total over arbitrary byte lists. -/
def decode (line : List ℕ) : DecodeResult :=
  if line = [CR] then .controlAck
  else if line = [BEL] ∨ line = [BEL, CR] then .controlError
  else
    match line with
    | [] => .controlError
    | c :: rest =>
      match letterInfo c with
      | none => .controlError
      | some (ext, rtr) =>
        match parseHexFixed (idWidth ext) 0 rest with
        | none => .controlError
        | some (i, rest1) =>
          match rest1 with
          | [] => .controlError
          | lc :: rest2 =>
            if isHexDigit lc then
              match parseDataBytes (hexVal lc) rest2 with
              | none => .controlError
              | some (bs, rest3) =>
                if rest3 = [CR] ∧ hexVal lc ≤ 8 ∧ i ≤ maxId ext then
                  .frame ⟨i, ext, rtr, bs⟩
                else .controlError
            else .controlError

/-- Modelled from the spec: an event produced by the Line Framer — a
complete raw line (terminator included) or a `FramingOverflow` failure. -/
inductive FramerEvent where
  | line (l : List ℕ)
  | overflow
deriving DecidableEq, Repr

/-- Modelled from the spec: the Line Framer's default maximum buffered
bytes before `FramingOverflow` (section 4.2). -/
def maxLineBytes : ℕ := 256

/-- Modelled from the spec: process one byte of the Line Framer.  A
terminator emits the buffered line (terminator included) and clears the
buffer; a byte that would grow the buffer to the maximum without a
terminator emits `overflow` and discards the buffer; otherwise the byte is
buffered. -/
def feedByte (buf : List ℕ) (b : ℕ) : List ℕ × List FramerEvent :=
  if b = CR then ([], [.line (buf ++ [CR])])
  else if maxLineBytes ≤ buf.length + 1 then ([], [.overflow])
  else (buf ++ [b], [])

/-- Modelled from the spec: `feed` of the Line Framer (section 4.2) —
appends the bytes to the internal buffer, emitting the events found, and
retains any trailing partial line in the returned buffer. -/
def feed : List ℕ → List ℕ → List ℕ × List FramerEvent
  | buf, [] => (buf, [])
  | buf, b :: bs =>
    let r1 := feedByte buf b
    let r2 := feed r1.1 bs
    (r2.1, r1.2 ++ r2.2)

/-- A sequence of `feed` calls, one per chunk, concatenating the events. -/
def feedChunks : List ℕ → List (List ℕ) → List ℕ × List FramerEvent
  | buf, [] => (buf, [])
  | buf, c :: cs =>
    let r1 := feed buf c
    let r2 := feedChunks r1.1 cs
    (r2.1, r1.2 ++ r2.2)

/-- Modelled from the spec: the Bus Session lifecycle states (section 3). -/
inductive SessionState where
  | Closed
  | Opening
  | Open
  | Closing
deriving DecidableEq, Repr

/-- Modelled from the spec: a Bus Session value owning its channel handle
and state field (section 9). -/
structure Session where
  state : SessionState
  channelHeld : Bool
deriving DecidableEq, Repr

/-- Modelled from the spec: outcome of awaiting a device acknowledgment
after writing a command line. -/
inductive AckOutcome where
  | ack
  | nak
  | timeout
deriving DecidableEq, Repr

/-- Modelled from the spec: result of `Session.send` (sections 4.3, 6). -/
inductive SendResult where
  | ok
  | sendTimeout
  | sendRejected
  | sessionClosed
  | encodingFailed (e : EncodingError)
deriving DecidableEq, Repr

/-- Modelled from the spec: `Session.send` (section 4.3) — valid only in
`Open`; encodes the frame and writes the line, then awaits the ack: ack
gives `ok`, explicit NAK gives `sendRejected`, timeout gives
`sendTimeout`.  The second component is the byte sequence written to the
channel. -/
def sessionSend (s : Session) (ackO : AckOutcome) (f : CanFrame) :
    SendResult × List ℕ :=
  match s.state with
  | .Open =>
    match encode f with
    | .error e => (.encodingFailed e, [])
    | .ok l =>
      (match ackO with
       | .ack => .ok
       | .nak => .sendRejected
       | .timeout => .sendTimeout, l)
  | _ => (.sessionClosed, [])

/-- The SLCAN close-channel command line `C` plus terminator. -/
def closeCmd : List ℕ := [67, CR]

/-- Modelled from the spec: `Session.close` (section 4.3) — valid from any
state; best-effort sends the close command if `Open`, then releases the
channel unconditionally.  The second component lists the command lines
written. -/
def sessionClose (s : Session) : Session × List (List ℕ) :=
  (⟨.Closed, false⟩, match s.state with | .Open => [closeCmd] | _ => [])

/-- The external library's bus object, as constructed by
`can.interface.Bus` in the script — opaque to the script beyond identity. -/
structure Bus where
  port : String
  bitrate : ℕ
deriving DecidableEq, Repr

/-- Embedding of `setup_slcan_bus` (simple.py lines 12-35): the `try`
block constructs the bus — `attempt` is the outcome of the external
constructor, `.error` covering both an unacquirable channel and a failed
handshake raised inside the library — and the `except Exception` handler
turns any raised error into the return value `None`. -/
def setup_slcan_bus (attempt : Except String Bus) : Option Bus :=
  match attempt with
  | .ok bus => some bus
  | .error _ => none

/-- Observable outcome of the head of `main`: either the process exited
with a code, or execution proceeds with a connected bus. -/
inductive MainStep where
  | exited (code : ℕ)
  | proceeding (bus : Bus)
deriving DecidableEq, Repr

/-- Embedding of `main`'s connection check (simple.py lines 91-93):
`bus = setup_slcan_bus(...)`, and `sys.exit(1)` when it is `None`. -/
def mainBusCheck (attempt : Except String Bus) : MainStep :=
  match setup_slcan_bus attempt with
  | none => .exited 1
  | some bus => .proceeding bus

/-- The `can.Message` value as constructed by the script: arbitration
identifier, payload, and the extended-identifier flag. -/
structure CanMessage where
  arbitration_id : ℕ
  data : List ℕ
  is_extended_id : Bool
deriving DecidableEq, Repr

/-- Embedding of `send_test_message` (simple.py lines 37-60): constructs
the message with `is_extended_id=False`, submits it via `bus.send`
(embedded as the `busSend` outcome function), returns `True` on success
and — through the `except Exception` handler, which prints a diagnostic —
`False` on any raised error.  The second component is the message value
constructed and submitted to the bus. -/
def send_test_message (can_id : ℕ) (payload : List ℕ)
    (busSend : CanMessage → Except String Unit) : Bool × CanMessage :=
  let message : CanMessage :=
    { arbitration_id := can_id, data := payload, is_extended_id := false }
  match busSend message with
  | .ok _ => (true, message)
  | .error _ => (false, message)

/-- A raised Python error on the receive path: `KeyboardInterrupt` (which
`except Exception` would not catch) or an ordinary `Exception`. -/
inductive PyExn where
  | keyboardInterrupt
  | exception (msg : String)
deriving DecidableEq, Repr

/-- Outcome of one `bus.recv(timeout=0.1)` call: a message, nothing
within the short timeout, or a raised error. -/
inductive RecvResult where
  | msg (m : CanMessage)
  | nothing
  | raises (e : PyExn)

/-- Embedding of the timing of the `receive_messages` polling loop
(simple.py lines 72-77) when no bytes are available: time in hundredths
of a second; each `bus.recv(timeout=0.1)` call with nothing available
blocks its full short timeout of 10 hundredths; the loop repeats while
the elapsed wall-clock time `e` is below the caller's timeout `t`.
Returns the total elapsed time when the loop exits. -/
def receiveLoopElapsed (t e : ℕ) : ℕ :=
  if e < t then receiveLoopElapsed t (e + 10) else e
termination_by t - e

/-- Embedding of the `while` loop of `receive_messages` with raised
errors made explicit: `oracle i` is the outcome of the `i`-th
`bus.recv` call; a raised error propagates out of the loop, a message
is printed and dropped, and each iteration advances one short-timeout
interval of the wall clock. -/
def receiveLoopRun (oracle : ℕ → RecvResult) (t e i : ℕ) : Except PyExn Unit :=
  if e < t then
    match oracle i with
    | .raises ex => .error ex
    | _ => receiveLoopRun oracle t (e + 10) (i + 1)
  else .ok ()
termination_by t - e

/-- Embedding of `receive_messages` (simple.py lines 62-83): runs the
polling loop under the `except KeyboardInterrupt` and `except Exception`
handlers, each of which prints and falls through; the function body ends
without a `return`, so the Python return value is always `None`.  The
`Except` layer records whether any raised error escapes to the caller. -/
def receive_messages (oracle : ℕ → RecvResult) (t : ℕ) :
    Except PyExn (Option CanMessage) :=
  match receiveLoopRun oracle t 0 0 with
  | .ok _ => .ok none
  | .error .keyboardInterrupt => .ok none
  | .error (.exception _) => .ok none

/-- The standard test frame sent by `main` (simple.py lines 96-98):
identifier 0x123, payload bytes 01..08, standard identifier, data frame. -/
def testFrame : CanFrame := ⟨0x123, false, false, [1, 2, 3, 4, 5, 6, 7, 8]⟩

/-- The byte sequence the specification scenario claims for `testFrame`:
ASCII `t1238010203040506070800` then the carriage-return terminator. -/
def claimedTestLine : List ℕ :=
  [116, 49, 50, 51, 56, 48, 49, 48, 50, 48, 51, 48, 52, 48, 53,
   48, 54, 48, 55, 48, 56, 48, 48, 13]

/-- The byte sequence the codec actually produces for `testFrame`:
ASCII `t12380102030405060708` then the carriage-return terminator. -/
def actualTestLine : List ℕ :=
  [116, 49, 50, 51, 56, 48, 49, 48, 50, 48, 51, 48, 52, 48, 53,
   48, 54, 48, 55, 48, 56, 13]

/-- A hexadecimal digit character produced by `hexDigit` is recognized and
parses back to its value. -/
theorem hexDigit_roundtrip :
    ∀ d, d < 16 → isHexDigit (hexDigit d) = true ∧ hexVal (hexDigit d) = d := by
  decide

/-- Parsing a fixed-width hexadecimal serialization recovers the value and
leaves the remainder untouched. -/
theorem parseHexFixed_encodeHexFixed :
    ∀ (w acc n : ℕ) (rest : List ℕ), n < 16 ^ w →
      parseHexFixed w acc (encodeHexFixed w n ++ rest) =
        some (acc * 16 ^ w + n, rest) := by
  intro w
  induction w with
  | zero =>
    intro acc n rest hn
    interval_cases n
    simp [encodeHexFixed, parseHexFixed]
  | succ w ih =>
    intro acc n rest hn
    have hq : n / 16 ^ w < 16 := by
      have h16 : 0 < 16 ^ w := Nat.pos_pow_of_pos w (by norm_num)
      have : n < 16 ^ w * 16 := by
        calc n < 16 ^ (w + 1) := hn
        _ = 16 ^ w * 16 := by ring
      exact Nat.div_lt_of_lt_mul this
    obtain ⟨hdig, hval⟩ := hexDigit_roundtrip (n / 16 ^ w) hq
    have hr : n % 16 ^ w < 16 ^ w :=
      Nat.mod_lt _ (Nat.pos_pow_of_pos w (by norm_num))
    simp only [encodeHexFixed, List.cons_append, List.append_eq, parseHexFixed,
      hdig, if_true, hval, ih (acc * 16 + n / 16 ^ w) (n % 16 ^ w) rest hr]
    have hdm : 16 ^ w * (n / 16 ^ w) + n % 16 ^ w = n := Nat.div_add_mod n (16 ^ w)
    have harith : (acc * 16 + n / 16 ^ w) * 16 ^ w + n % 16 ^ w
        = acc * 16 ^ (w + 1) + n := by
      calc (acc * 16 + n / 16 ^ w) * 16 ^ w + n % 16 ^ w
          = acc * (16 ^ w * 16) + (16 ^ w * (n / 16 ^ w) + n % 16 ^ w) := by ring
        _ = acc * 16 ^ (w + 1) + n := by rw [hdm, pow_succ]
    rw [harith]

/-- Parsing the hex-pair serialization of a byte list recovers the list. -/
theorem parseDataBytes_encode :
    ∀ (data : List ℕ) (rest : List ℕ), (∀ b ∈ data, b < 256) →
      parseDataBytes data.length ((data.map (encodeHexFixed 2)).flatten ++ rest) =
        some (data, rest) := by
  intro data
  induction data with
  | nil => intro rest _; simp [parseDataBytes]
  | cons b bs ih =>
    intro rest hb
    have hb0 : b < 256 := hb b (List.mem_cons_self b bs)
    have hbs : ∀ x ∈ bs, x < 256 := fun x hx => hb x (List.mem_cons_of_mem b hx)
    have h2 : b < 16 ^ 2 := by norm_num at hb0 ⊢; omega
    simp only [List.length_cons, List.map_cons, List.flatten_cons, List.append_assoc,
      parseDataBytes, parseHexFixed_encodeHexFixed 2 0 b _ h2]
    simp [ih rest hbs]

/-- Decoding the raw serialization of a valid frame recovers the frame. -/
theorem decode_encodeRaw (f : CanFrame) (hv : f.valid) :
    decode (encodeRaw f) = .frame f := by
  obtain ⟨i, ext, rtr, data⟩ := f
  obtain ⟨hlen, hid, hbytes⟩ := hv
  simp only [CanFrame.valid] at hlen hid hbytes
  have hlen16 : data.length < 16 := by omega
  obtain ⟨hld, hlv⟩ := hexDigit_roundtrip data.length hlen16
  have hidlt : i < 16 ^ idWidth ext := by
    cases ext <;> simp_all [maxId, idWidth] <;> omega
  cases ext <;> cases rtr <;>
    simp [decode, encodeRaw, cmdLetter, letterInfo, CR, BEL,
      parseHexFixed_encodeHexFixed (idWidth _) 0 i _ hidlt, hld, hlv,
      parseDataBytes_encode data [13] hbytes, hlen, hid, maxId] <;>
    simp [maxId] at hid <;> omega

/-- Unconditional unfolding equation of `receiveLoopElapsed`. -/
theorem receiveLoopElapsed_eq (t e : ℕ) :
    receiveLoopElapsed t e = if e < t then receiveLoopElapsed t (e + 10) else e := by
  rw [receiveLoopElapsed]

/-- The polling loop, started at elapsed time `e ≤ t`, exits at a time in
the half-open interval from `t` to `t + 10`. -/
theorem receiveLoopElapsed_bounds (t : ℕ) :
    ∀ e, e ≤ t → t ≤ receiveLoopElapsed t e ∧ receiveLoopElapsed t e < t + 10 := by
  have key : ∀ (k e : ℕ), t - e ≤ k → e ≤ t →
      t ≤ receiveLoopElapsed t e ∧ receiveLoopElapsed t e < t + 10 := by
    intro k
    induction k with
    | zero =>
      intro e hk he
      have het : e = t := by omega
      subst het
      rw [receiveLoopElapsed_eq, if_neg (lt_irrefl e)]
      omega
    | succ k ih =>
      intro e hk he
      rw [receiveLoopElapsed_eq]
      by_cases h : e < t
      · rw [if_pos h]
        by_cases h2 : e + 10 ≤ t
        · exact ih (e + 10) (by omega) h2
        · rw [receiveLoopElapsed_eq, if_neg (by omega : ¬ e + 10 < t)]
          omega
      · rw [if_neg h]
        omega
  exact fun e he => key (t - e) e le_rfl he

/-- Splitting the input of one `feed` call into two consecutive calls
threads the buffer and concatenates the emitted events. -/
theorem feed_append : ∀ (a b buf : List ℕ),
    feed buf (a ++ b) =
      ((feed (feed buf a).1 b).1, (feed buf a).2 ++ (feed (feed buf a).1 b).2) := by
  intro a
  induction a with
  | nil => intro b buf; simp [feed]
  | cons x xs ih => intro b buf; simp [feed, ih, List.append_assoc]

/-- Claim C1, counterexample: with no bytes available and a timeout of
0.15 time units (15 hundredths), the receive loop of `receive_messages`
exits only after 0.20 time units — it blocks longer than the timeout,
refuting the claim that for every timeout `t` it never blocks past `t`. -/
theorem receive_loop_overruns_timeout :
    receiveLoopElapsed 15 0 = 20 ∧ 15 < receiveLoopElapsed 15 0 := by
  have h : receiveLoopElapsed 15 0 = 20 := by
    rw [receiveLoopElapsed_eq]
    norm_num
    rw [receiveLoopElapsed_eq]
    norm_num
    rw [receiveLoopElapsed_eq]
    norm_num
  exact ⟨h, by omega⟩

/-- Claim C1, amended: when no bytes are available, the receive loop of
`receive_messages` returns (with the value `None`) after an elapsed time
of at least `t` and strictly less than `t` plus one short-poll interval
of 0.1 units — so it can run past `t`, but never by a full short
timeout. -/
theorem receive_loop_elapsed_in_poll_window :
    ∀ t : ℕ, t ≤ receiveLoopElapsed t 0 ∧ receiveLoopElapsed t 0 < t + 10 :=
  fun t => receiveLoopElapsed_bounds t 0 (Nat.zero_le t)

/-- Claim C2: for every valid CanFrame — payload at most 8 bytes of
byte values, identifier within the range of its format — decoding the
encoding yields the original frame. -/
theorem encode_decode_roundtrip (f : CanFrame) (hv : f.valid) :
    (encode f).map decode = Except.ok (DecodeResult.frame f) := by
  obtain ⟨hlen, hid, hbytes⟩ := hv
  rw [encode, if_neg (by omega : ¬ 8 < f.data.length), if_neg (by omega : ¬ maxId f.ext < f.id)]
  simp [Except.map, decode_encodeRaw f ⟨hlen, hid, hbytes⟩]

/-- Witness for claim C2 at a concrete valid frame. -/
theorem encode_decode_roundtrip_witness :
    CanFrame.valid ⟨0x1ABCDE, true, false, [17, 34, 255]⟩ ∧
      (encode ⟨0x1ABCDE, true, false, [17, 34, 255]⟩).map decode =
        Except.ok (DecodeResult.frame ⟨0x1ABCDE, true, false, [17, 34, 255]⟩) :=
  ⟨by decide, encode_decode_roundtrip ⟨0x1ABCDE, true, false, [17, 34, 255]⟩ (by decide)⟩

/-- Claim C3: whenever the external bus constructor fails — the channel
cannot be acquired or the handshake inside the library does not complete,
both surfacing as a raised error — `setup_slcan_bus` returns `None`
rather than propagating the error, the caller can detect the failure
distinctly (a `none` versus `some` result), and `main` exits with code 1. -/
theorem open_failure_returns_none_and_main_exits :
    ∀ e : String,
      setup_slcan_bus (Except.error e) = none ∧
        mainBusCheck (Except.error e) = MainStep.exited 1 :=
  fun _ => ⟨rfl, rfl⟩

/-- Claim C4, counterexample: two distinct send failure kinds — a timeout
and a rejection raised by the bus — produce the identical caller-visible
result `False` from `send_test_message`, so send failures are reported as
a single generic failure, not as distinguishable error kinds. -/
theorem send_error_kinds_collapse :
    (send_test_message 0x123 [1, 2, 3, 4] (fun _ => Except.error "SendTimeout")).1 = false ∧
      (send_test_message 0x123 [1, 2, 3, 4] (fun _ => Except.error "SendRejected")).1 = false :=
  ⟨rfl, rfl⟩

/-- Claim C4, amended: no error on the send path of `send_test_message`
propagates to the caller, and every failure is reported — but only as the
single generic boolean `False` (with a printed diagnostic), while success
returns `True`; the distinct kinds SendTimeout, SendRejected and
SessionClosed are not distinguishable in the returned value. -/
theorem send_failure_reported_generic :
    ∀ (can_id : ℕ) (payload : List ℕ) (busSend : CanMessage → Except String Unit),
      ((∃ e, busSend { arbitration_id := can_id, data := payload, is_extended_id := false } =
          Except.error e) →
        (send_test_message can_id payload busSend).1 = false) ∧
      (busSend { arbitration_id := can_id, data := payload, is_extended_id := false } =
          Except.ok () →
        (send_test_message can_id payload busSend).1 = true) := by
  intro can_id payload busSend
  constructor
  · rintro ⟨e, he⟩
    simp [send_test_message, he]
  · intro h
    simp [send_test_message, h]

/-- Witness for claim C4 at a concrete failing bus. -/
theorem send_failure_reported_generic_witness :
    (send_test_message 0x456 [170, 187] (fun _ => Except.error "boom")).1 = false :=
  (send_failure_reported_generic 0x456 [170, 187] (fun _ => Except.error "boom")).1
    ⟨"boom", rfl⟩

/-- Claim C5, counterexample: the byte sequence written to the channel
for the standard frame with identifier 0x123 and payload 01..08 is not
the claimed ASCII line `t1238010203040506070800` plus terminator — that
line carries a spurious trailing `00` hex pair, a ninth payload byte. -/
theorem send_bytes_differ_from_claimed_line :
    (sessionSend ⟨SessionState.Open, true⟩ AckOutcome.ack testFrame).2 ≠ claimedTestLine := by
  decide

/-- Claim C5, amended: sending the standard frame with identifier 0x123
and payload bytes 01..08 on an Open session whose channel immediately
acks succeeds, and the exact byte sequence written to the channel is the
ASCII line `t12380102030405060708` followed by the carriage-return
terminator (leading token `t`, 3 hex identifier digits, 1 hex length
digit, 2 hex digits per payload byte — with exactly 8 payload pairs). -/
theorem send_bytes_exact :
    sessionSend ⟨SessionState.Open, true⟩ AckOutcome.ack testFrame =
      (SendResult.ok, actualTestLine) := by
  decide

/-- Claim C6: `close` is idempotent and total over session states — the
first close puts the session in `Closed` and releases the channel
unconditionally from any state, and a second close in sequence is a
no-op that changes nothing, emits no command, and raises no error. -/
theorem close_idempotent_and_releases :
    ∀ s : Session,
      (sessionClose s).1.state = SessionState.Closed ∧
        (sessionClose s).1.channelHeld = false ∧
        sessionClose (sessionClose s).1 = ((sessionClose s).1, []) := by
  intro s
  obtain ⟨st, ch⟩ := s
  cases st <;> exact ⟨rfl, rfl, rfl⟩

/-- Claim C7: the Line Framer is chunking-invariant — feeding any list of
chunks one `feed` call at a time, from any starting buffer, threads to
the same final buffer and emits the same concatenated event sequence as
feeding the flattened byte sequence in one single call. -/
theorem feed_chunking_invariant :
    ∀ (chunks : List (List ℕ)) (buf : List ℕ),
      feedChunks buf chunks = feed buf chunks.flatten := by
  intro chunks
  induction chunks with
  | nil => intro buf; simp [feedChunks, feed]
  | cons c cs ih =>
    intro buf
    rw [List.flatten_cons, feed_append, ← ih]
    simp [feedChunks]

/-- Claim C8: `encode` fails with an `EncodingError` exactly when its
input is out of range — whenever the payload length exceeds 8 or the
identifier exceeds the range of its format — and in particular it fails
for a frame with payload length 9 and for a standard-identifier frame
with identifier 0x800. -/
theorem encode_fails_iff_out_of_range :
    (∀ f : CanFrame,
        (∃ e, encode f = Except.error e) ↔ (8 < f.data.length ∨ maxId f.ext < f.id)) ∧
      encode ⟨0x100, false, false, [0, 0, 0, 0, 0, 0, 0, 0, 0]⟩ =
        Except.error EncodingError.payloadTooLong ∧
      encode ⟨0x800, false, false, []⟩ = Except.error EncodingError.idOutOfRange := by
  refine ⟨fun f => ?_, rfl, rfl⟩
  unfold encode
  split_ifs with h1 h2 <;> simp_all

/-- Claim C9: `receive_messages` never propagates a raised error to its
caller and always returns `None`, for every sequence of receive outcomes
and every timeout — both `KeyboardInterrupt` and every ordinary exception
raised on the receive path are caught internally, so its result is the
same as that of a quiet bus. -/
theorem receive_messages_never_raises :
    ∀ (oracle : ℕ → RecvResult) (t : ℕ),
      receive_messages oracle t = Except.ok none := by
  intro oracle t
  unfold receive_messages
  cases receiveLoopRun oracle t 0 0 with
  | error e => cases e <;> rfl
  | ok u => rfl

/-- Claim C10: `send_test_message` always constructs and submits the
outgoing message with `is_extended_id` fixed to `False` and with
`arbitration_id` and `data` equal to its arguments, for every identifier
value — including identifiers above the 11-bit standard limit 0x7FF,
which are still submitted as standard frames rather than rejected or
promoted to extended frames. -/
theorem send_message_constructed_standard :
    ∀ (can_id : ℕ) (payload : List ℕ) (busSend : CanMessage → Except String Unit),
      (send_test_message can_id payload busSend).2.is_extended_id = false ∧
        (send_test_message can_id payload busSend).2.arbitration_id = can_id ∧
        (send_test_message can_id payload busSend).2.data = payload := by
  intro can_id payload busSend
  rcases h : busSend { arbitration_id := can_id, data := payload, is_extended_id := false }
    with e | u <;> simp [send_test_message, h]

end Slcan
